import Mathlib

/-!
Verification development for the V8-compatibility handle/value layer of the
repository: tagged pointers, handle scopes, `Local` handles, and the
function-call trampoline `FunctionTemplate::functionCall`
(src/bun.js/bindings/v8/shim/FunctionTemplate.cpp), together with the
`Function` objects that dispatch into it (src/bun.js/bindings/v8/Function.h)
and the escapable-handle-scope interface
(src/bun.js/bindings/v8/EscapableHandleScopeBase.h).

The shim primitives whose implementations are not part of the excerpted
sources (`TaggedPointer`, `HandleScope`, `Local`, `Isolate`,
`ImplicitArgs`/`FunctionCallbackInfo` layout, the `EscapableHandleScopeBase`
member definitions, and `Data::localToJSValue`) are modelled from the spec;
each such definition says so in its doc comment.  The trampoline itself and
the `Function` constructor are translated directly from the source.
-/

namespace V8Shim

/-- Discriminant of a tagged machine word, mirroring `TaggedPointer::Type`
as used by the trampoline (`type() != TaggedPointer::Type::Smi`). -/
inductive TagKind where
  | Smi
  | StrongPointer
deriving DecidableEq, Repr

/-- Modelled from the spec: `TaggedPointer` — one machine word encoding
either an inline small integer (`smi`) or a (possibly null) pointer to a
heap cell (`ptr`), where `ptr 0` is the null pointer.  The source file
defining `TaggedPointer` is not part of the excerpt; the model follows
spec §3 and §4.1 and the observations the trampoline makes (`type()`,
`getPtr()`, the default constructor `TaggedPointer()`). -/
inductive TaggedPointer where
  | smi (value : Int)
  | ptr (addr : Nat)
deriving DecidableEq, Repr

/-- Modelled from the spec: the default-constructed `TaggedPointer()` — a
null strong pointer.  This is the "unset" sentinel stored into the
return-value slot before the callback runs. -/
def TaggedPointer.empty : TaggedPointer := .ptr 0

/-- Modelled from the spec: `TaggedPointer::type()`. -/
def TaggedPointer.type : TaggedPointer → TagKind
  | .smi _ => .Smi
  | .ptr _ => .StrongPointer

/-- Modelled from the spec: `TaggedPointer::getPtr()` — the pointer payload;
only meaningful when the discriminant is not `Smi` (the trampoline checks
the discriminant first). -/
def TaggedPointer.getPtr : TaggedPointer → Nat
  | .smi _ => 0
  | .ptr a => a

/-- Host-engine value as observed through this layer: an int32 (encodable as
a small integer), the oddballs `undefined` and `null`, or a heap object
identified by its cell. -/
inductive JSValue where
  | int32 (n : Int)
  | undefined
  | null
  | object (id : Nat)
deriving DecidableEq, Repr

/-- Modelled from the spec: the tagged representation of a host value —
int32 values are encoded inline as small integers, every other value is a
pointer to its (nonzero-addressed) heap cell.  Oddballs live at fixed
nonzero addresses. -/
def taggedFor : JSValue → TaggedPointer
  | .int32 n => .smi n
  | .undefined => .ptr 1
  | .null => .ptr 2
  | .object id => .ptr (id + 3)

/-- Modelled from the spec: `Data::localToJSValue` — decode a tagged word
back into the host representation.  The null pointer decodes to nothing
(it is the unset sentinel, not a value). -/
def jsFromTagged : TaggedPointer → Option JSValue
  | .smi n => some (.int32 n)
  | .ptr 0 => none
  | .ptr 1 => some .undefined
  | .ptr 2 => some .null
  | .ptr (n + 3) => some (.object n)

/-- Modelled from the spec: one handle scope's arena — the list of handle
slots it owns, newest first, each slot a (stable address, tagged value)
pair. -/
structure ScopeRec where
  slots : List (Nat × TaggedPointer)
deriving DecidableEq, Repr

/-- Modelled from the spec: the `Isolate`'s handle-scope state — the stack
of live scopes (innermost first) and a fresh-address source for new handle
slots (addresses start at 1; 0 is the null pointer). -/
structure Isolate where
  scopes : List ScopeRec
  nextSlot : Nat
deriving DecidableEq, Repr

/-- Modelled from the spec: `Local<T>` — a non-owning view holding the
address of one handle slot. -/
structure Local where
  slot : Nat
deriving DecidableEq, Repr

/-- Modelled from the spec: read the handle slot at address `a`, searching
the live scope stack innermost-first. -/
def readSlotIn : List ScopeRec → Nat → Option TaggedPointer
  | [], _ => none
  | s :: rest, a =>
    match s.slots.lookup a with
    | some t => some t
    | none => readSlotIn rest a

/-- Modelled from the spec: read a handle slot through the isolate. -/
def Isolate.readSlot (iso : Isolate) (a : Nat) : Option TaggedPointer :=
  readSlotIn iso.scopes a

/-- Modelled from the spec: `Local::tagged()` — dereference the slot this
local aliases; a dangling local reads garbage (modelled as the null word). -/
def Local.tagged (l : Local) (iso : Isolate) : TaggedPointer :=
  (iso.readSlot l.slot).getD TaggedPointer.empty

/-- Modelled from the spec: overwrite the slot at address `a` (first match,
innermost scope first) with `v`; used by the escape-slot write. -/
def setSlotIn : List (Nat × TaggedPointer) → Nat → TaggedPointer → List (Nat × TaggedPointer)
  | [], _, _ => []
  | (k, t) :: rest, a, v => if k = a then (k, v) :: rest else (k, t) :: setSlotIn rest a v

/-- Modelled from the spec: write through the scope stack to the first scope
owning a slot with address `a`. -/
def writeSlotIn : List ScopeRec → Nat → TaggedPointer → List ScopeRec
  | [], _, _ => []
  | s :: rest, a, v =>
    match s.slots.lookup a with
    | some _ => { slots := setSlotIn s.slots a v } :: rest
    | none => s :: writeSlotIn rest a v

/-- Modelled from the spec: `HandleScope::HandleScope(Isolate*)` — push a
fresh, empty scope onto the isolate's scope stack. -/
def HandleScope.construct (iso : Isolate) : Isolate :=
  { iso with scopes := ⟨[]⟩ :: iso.scopes }

/-- Modelled from the spec: the `HandleScope` destructor — pop the isolate's
scope stack back to the saved previous top, dropping every slot this scope
owned. -/
def HandleScope.destruct (iso : Isolate) : Isolate :=
  { iso with scopes := iso.scopes.tail }

/-- Modelled from the spec: `HandleScope::createLocal<T>(vm, value)` —
allocate the next handle slot from the current (innermost) scope's arena,
store the tagged representation of `value`, and return a `Local` aliasing
that slot.  With no scope on the stack the operation is a usage error and
leaves the state unchanged. -/
def HandleScope.createLocal (iso : Isolate) (v : JSValue) : Local × Isolate :=
  match iso.scopes with
  | [] => (⟨0⟩, iso)
  | top :: rest =>
    (⟨iso.nextSlot⟩,
      { scopes := { slots := (iso.nextSlot, taggedFor v) :: top.slots } :: rest,
        nextSlot := iso.nextSlot + 1 })

/-- Function-callback signature: the native callback receives the
`FunctionCallbackInfo` view and communicates its return value by writing the
`ImplicitArgs` return-value slot; the model captures the callback's effect
as the slot content it leaves behind (`none` = callback never wrote the
slot, so the slot keeps whatever it held before). -/
structure ImplicitArgs where
  holder : Option Nat
  isolate : Nat
  context : Option Nat
  return_value : TaggedPointer
  target : TaggedPointer
  new_target : Option Nat
deriving DecidableEq, Repr

/-- Modelled from the spec: `FunctionCallbackInfo<Value>` — a view over the
`ImplicitArgs` record plus the contiguous argument vector (base pointer one
slot past the `this` slot) and the argument count. -/
structure FunctionCallbackInfo where
  implicit_args : ImplicitArgs
  values : List TaggedPointer
  length : Nat
deriving DecidableEq, Repr

/-- Modelled from the spec: `FunctionCallbackInfo::Data()` as seen by a
callback — the associated data value, decoded from the `target` word of
`ImplicitArgs`. -/
def FunctionCallbackInfo.dataValue (info : FunctionCallbackInfo) : Option JSValue :=
  jsFromTagged info.implicit_args.target

/-- Native callback type (`FunctionCallback` in the headers): reads the
info view; its result is the final content of the return-value slot
(`none` when the callback does not set a return value). -/
abbrev FunctionCallback := FunctionCallbackInfo → Option TaggedPointer

/-- `FunctionTemplate` (FunctionTemplate.cpp lines 25-31): stores the
registered native callback `m_callback` and the captured data value
`m_data`. -/
structure FunctionTemplate where
  m_callback : FunctionCallback
  m_data : JSValue

/-- `FunctionTemplate::create` (FunctionTemplate.cpp lines 25-31). -/
def FunctionTemplate.create (callback : FunctionCallback) (data : JSValue) : FunctionTemplate :=
  { m_callback := callback, m_data := data }

/-- `FunctionTemplate::visitChildrenImpl` (FunctionTemplate.cpp lines
43-51): the garbage-collector visit appends `m_data`, so the template keeps
its data value alive independently of any handle scope.  The model records
the list of values the visitor appends beyond the base class. -/
def FunctionTemplate.visitChildren (ft : FunctionTemplate) : List JSValue :=
  [ft.m_data]

/-- Tag naming the native invocation target a `JSC::InternalFunction` was
constructed with; `functionTemplateFunctionCall` stands for
`FunctionTemplate::functionCall`, `hostBuiltin` for any other host-engine
native function. -/
inductive NativeCallTarget where
  | functionTemplateFunctionCall
  | hostBuiltin (id : Nat)
deriving DecidableEq, Repr

/-- `v8::Function` (Function.h): an internal function carrying its
construction-time native call target and the `FunctionTemplate` it was
created from (`__internals.functionTemplate`). -/
structure Function where
  callTarget : NativeCallTarget
  functionTemplate : FunctionTemplate

/-- The private constructor `Function::Function` (Function.h lines 51-54):
delegates to `Base(vm, structure, FunctionTemplate::functionCall)`, so the
native invocation target is always the trampoline; `finishCreation` then
stores the template. -/
def Function.construct (ft : FunctionTemplate) : Function :=
  { callTarget := .functionTemplateFunctionCall, functionTemplate := ft }

/-- `Function::create` (Function.h line 14): the sole creation path, which
runs the private constructor. -/
def Function.create (ft : FunctionTemplate) : Function :=
  Function.construct ft

/-- The callee of a host call frame: either a `v8::Function` built on this
layer, or some other host-engine callable (for which the dynamic cast to
`Function*` fails). -/
inductive Callee where
  | v8Function (fn : Function)
  | hostCallee (id : Nat)

/-- Host call frame as consumed by the trampoline: `jsCallee()`,
`thisValue()`, and the positional arguments (`argumentCount()` /
`argument(i)`). -/
structure CallFrame where
  jsCallee : Callee
  thisValue : JSValue
  arguments : List JSValue

/-- `JSC::jsDynamicCast<Function*>` applied to the call frame's callee
(FunctionTemplate.cpp line 57): succeeds exactly when the callee is a
`v8::Function`. -/
def jsDynamicCastFunction : Callee → Option Function
  | .v8Function f => some f
  | .hostCallee _ => none

/-- The host global object as far as the trampoline consumes it; the
resolved V8 isolate pointer stands for
`jsCast<Zig::GlobalObject*>(globalObject)->V8GlobalInternals()->isolate()`
(FunctionTemplate.cpp line 59). -/
structure GlobalObject where
  v8IsolatePtr : Nat
deriving DecidableEq, Repr

/-- Isolate resolution from the global object (FunctionTemplate.cpp line 59). -/
def resolveIsolate (g : GlobalObject) : Nat :=
  g.v8IsolatePtr

/-- Fatal outcomes of the trampoline.  `unresolvableCallee` models the crash
on FunctionTemplate.cpp line 58: when `jsDynamicCast<Function*>` returns
null, `callee->functionTemplate()` dereferences a null pointer, which
terminates the call path instead of producing a value. -/
inductive FatalError where
  | unresolvableCallee
deriving DecidableEq, Repr

/-- The argument-filling loop of the trampoline (FunctionTemplate.cpp lines
68-71): for each positional argument, create a `Local` in the open scope
and write its tagged word into buffer slot `i + 1`. -/
def writeArgs (iso : Isolate) (buf : List TaggedPointer) (argVals : List JSValue) (i : Nat) :
    List TaggedPointer × Isolate :=
  match argVals with
  | [] => (buf, iso)
  | v :: rest =>
    let p := HandleScope.createLocal iso v
    writeArgs p.2 (buf.set (i + 1) (p.1.tagged p.2)) rest (i + 1)

/-- Lines 62-71 of FunctionTemplate.cpp: allocate the argument buffer of
`argumentCount() + 1` default-constructed tagged words, open the
`HandleScope`, write the tagged `this` value into slot 0, then run the
argument loop. -/
def trampolineArgs (iso : Isolate) (cf : CallFrame) : List TaggedPointer × Isolate :=
  let args0 := List.replicate (cf.arguments.length + 1) TaggedPointer.empty
  let iso1 := HandleScope.construct iso
  let p := HandleScope.createLocal iso1 cf.thisValue
  let args1 := args0.set 0 (p.1.tagged p.2)
  writeArgs p.2 args1 cf.arguments 0

/-- Lines 62-87 of FunctionTemplate.cpp: build the argument buffer, wrap the
template's data value as a `Local` in the same scope, construct
`ImplicitArgs` (null holder/context/new-target, resolved isolate pointer,
unset return-value sentinel, tagged data handle as target), and form the
`FunctionCallbackInfo` view over the buffer offset by one slot. -/
def trampolineInfo (isoPtr : Nat) (iso : Isolate) (cf : CallFrame) (ft : FunctionTemplate) :
    FunctionCallbackInfo × Isolate :=
  let p := trampolineArgs iso cf
  let q := HandleScope.createLocal p.2 ft.m_data
  let implicit_args : ImplicitArgs :=
    { holder := none
      isolate := isoPtr
      context := none
      return_value := TaggedPointer.empty
      target := q.1.tagged q.2
      new_target := none }
  ({ implicit_args := implicit_args
     values := p.1.drop 1
     length := cf.arguments.length }, q.2)

/-- `FunctionTemplate::functionCall` (FunctionTemplate.cpp lines 55-98):
resolve the callee (fatal on failure), build the callback info, run the
native callback, close the scope, and convert the return-value slot —
defaulting to `undefined` when the slot still holds the non-Smi null
sentinel. -/
def FunctionTemplate.functionCall (g : GlobalObject) (iso : Isolate) (cf : CallFrame) :
    Except FatalError (JSValue × Isolate) :=
  match jsDynamicCastFunction cf.jsCallee with
  | none => .error .unresolvableCallee
  | some callee =>
    let ft := callee.functionTemplate
    let isoPtr := resolveIsolate g
    let p := trampolineInfo isoPtr iso cf ft
    let return_value := (ft.m_callback p.1).getD p.1.implicit_args.return_value
    let iso5 := HandleScope.destruct p.2
    if return_value.type ≠ TagKind.Smi ∧ return_value.getPtr = 0 then
      .ok (.undefined, iso5)
    else
      .ok ((jsFromTagged return_value).getD .undefined, iso5)

/-- Host-engine dispatch for a `Function` object: invoke the native call
target it was constructed with. -/
def Function.hostCallTarget (f : Function) :
    GlobalObject → Isolate → CallFrame → Except FatalError (JSValue × Isolate) :=
  match f.callTarget with
  | .functionTemplateFunctionCall => FunctionTemplate.functionCall
  | .hostBuiltin _ => fun _ iso _ => .ok (.undefined, iso)

/-- Modelled from the spec: the `EscapableHandleScopeBase` constructor
(EscapableHandleScopeBase.h declares it; its definition is not in the
excerpt) — reserve one slot in the parent scope (the scope active
immediately before this one is pushed), remember its address as
`escape_slot`, then push this scope.  Returns the reserved address and the
new state. -/
def EscapableHandleScopeBase.construct (iso : Isolate) : Nat × Isolate :=
  match iso.scopes with
  | [] => (0, HandleScope.construct iso)
  | top :: rest =>
    (iso.nextSlot,
      HandleScope.construct
        { scopes := { slots := (iso.nextSlot, TaggedPointer.empty) :: top.slots } :: rest,
          nextSlot := iso.nextSlot + 1 })

/-- Modelled from the spec: `EscapableHandleScopeBase::EscapeSlot` — copy
the tagged value into the pre-reserved parent-owned slot and return that
slot's address so the caller can wrap it as a `Local` bound to the parent
scope. -/
def EscapableHandleScopeBase.EscapeSlot (iso : Isolate) (escape_slot : Nat) (v : TaggedPointer) :
    Nat × Isolate :=
  (escape_slot, { iso with scopes := writeSlotIn iso.scopes escape_slot v })

/-- A batch of `createLocal` allocations inside the current scope. -/
def allocLocals : Isolate → List JSValue → Isolate
  | iso, [] => iso
  | iso, v :: vs => allocLocals (HandleScope.createLocal iso v).2 vs

/-- One full escapable-scope episode: construct the scope over `iso`,
perform the child allocations `vs`, escape `v` through the reserved slot,
and destroy the scope; yields the escaped slot's address and the state
after destruction. -/
def escapeRun (iso : Isolate) (vs : List JSValue) (v : TaggedPointer) : Nat × Isolate :=
  let p := EscapableHandleScopeBase.construct iso
  let iso2 := allocLocals p.2 vs
  let q := EscapableHandleScopeBase.EscapeSlot iso2 p.1 v
  (q.1, HandleScope.destruct q.2)

/-- A handle-scope trace operation: scope construction, scope destruction,
or a `createLocal` allocation in the innermost scope. -/
inductive ScopeOp where
  | push
  | pop
  | alloc (v : JSValue)

/-- Run one trace operation. -/
def ScopeOp.step (iso : Isolate) : ScopeOp → Isolate
  | .push => HandleScope.construct iso
  | .pop => HandleScope.destruct iso
  | .alloc v => (HandleScope.createLocal iso v).2

/-- Run a trace of scope operations. -/
def runOps (iso : Isolate) : List ScopeOp → Isolate
  | [] => iso
  | op :: ops => runOps (op.step iso) ops

/-- Traces whose constructions and destructions are properly nested (strict
LIFO order), never popping a scope that was live before the trace began. -/
inductive Balanced : List ScopeOp → Prop
  | nil : Balanced []
  | alloc (v : JSValue) (ops : List ScopeOp) : Balanced ops → Balanced (.alloc v :: ops)
  | nest (ops1 ops2 : List ScopeOp) : Balanced ops1 → Balanced ops2 →
      Balanced (.push :: ops1 ++ .pop :: ops2)

/-! ## Supporting lemmas -/

theorem lookup_cons_self {β : Type} (a : Nat) (v : β) (l : List (Nat × β)) :
    ((a, v) :: l).lookup a = some v := by
  simp [List.lookup]

theorem lookup_cons_ne {β : Type} {a k : Nat} (v : β) (l : List (Nat × β)) (h : a ≠ k) :
    ((k, v) :: l).lookup a = l.lookup a := by
  simp [List.lookup, beq_eq_false_iff_ne.mpr h]

theorem lookup_eq_none_of_lt {β : Type} {a : Nat} :
    ∀ {l : List (Nat × β)}, (∀ p ∈ l, a < p.1) → l.lookup a = none := by
  intro l
  induction l with
  | nil => intro _; rfl
  | cons p rest ih =>
    intro h
    have hne : a ≠ p.1 := Nat.ne_of_lt (h p (List.mem_cons_self p rest))
    have := lookup_cons_ne (a := a) (k := p.1) p.2 rest hne
    simpa [this] using ih (fun q hq => h q (List.mem_cons_of_mem p hq))

theorem lookup_append_left_none {β : Type} {a : Nat} :
    ∀ {l1 : List (Nat × β)} (l2 : List (Nat × β)), l1.lookup a = none →
      (l1 ++ l2).lookup a = l2.lookup a := by
  intro l1
  induction l1 with
  | nil => intro l2 _; rfl
  | cons p rest ih =>
    obtain ⟨k, v⟩ := p
    intro l2 h
    by_cases hk : a = k
    · subst hk
      rw [lookup_cons_self] at h
      exact absurd h (by simp)
    · rw [lookup_cons_ne v rest hk] at h
      rw [List.cons_append, lookup_cons_ne v (rest ++ l2) hk]
      exact ih l2 h

theorem jsFromTagged_taggedFor (j : JSValue) : jsFromTagged (taggedFor j) = some j := by
  cases j <;> rfl

theorem taggedFor_not_unset (j : JSValue) :
    ¬((taggedFor j).type ≠ TagKind.Smi ∧ (taggedFor j).getPtr = 0) := by
  cases j <;> simp [taggedFor, TaggedPointer.type, TaggedPointer.getPtr]

theorem taggedFor_ne_empty (j : JSValue) : taggedFor j ≠ TaggedPointer.empty := by
  cases j <;> simp [taggedFor, TaggedPointer.empty]

theorem jsFromTagged_of_legit {v : TaggedPointer}
    (h : v.type = TagKind.Smi ∨ v.getPtr ≠ 0) : ∃ j, jsFromTagged v = some j := by
  cases v with
  | smi n => exact ⟨.int32 n, rfl⟩
  | ptr a =>
    match a with
    | 0 =>
      rcases h with h | h
      · exact absurd h (by simp [TaggedPointer.type])
      · exact absurd rfl h
    | 1 => exact ⟨.undefined, rfl⟩
    | 2 => exact ⟨.null, rfl⟩
    | (n + 3) => exact ⟨.object n, rfl⟩

theorem createLocal_spec (iso : Isolate) (v : JSValue) {c : ScopeRec} {rest : List ScopeRec}
    (h : iso.scopes = c :: rest) :
    (HandleScope.createLocal iso v).1.tagged (HandleScope.createLocal iso v).2 = taggedFor v ∧
    (HandleScope.createLocal iso v).2.scopes
      = ScopeRec.mk ((iso.nextSlot, taggedFor v) :: c.slots) :: rest ∧
    (HandleScope.createLocal iso v).2.nextSlot = iso.nextSlot + 1 := by
  obtain ⟨scopes, n⟩ := iso
  simp only at h
  subst h
  refine ⟨?_, rfl, rfl⟩
  simp [HandleScope.createLocal, Local.tagged, Isolate.readSlot, readSlotIn, lookup_cons_self]

theorem writeArgs_spec :
    ∀ (vals : List JSValue) (iso : Isolate) (buf : List TaggedPointer) (i : Nat)
      (c : ScopeRec) (rest : List ScopeRec), iso.scopes = c :: rest →
      buf.length = i + 1 + vals.length →
      (writeArgs iso buf vals i).1 = buf.take (i + 1) ++ vals.map taggedFor ∧
      ∃ c', (writeArgs iso buf vals i).2.scopes = c' :: rest := by
  intro vals
  induction vals with
  | nil =>
    intro iso buf i c rest hs hlen
    refine ⟨?_, ⟨c, hs⟩⟩
    simp only [writeArgs, List.map_nil, List.append_nil]
    have hle : buf.length ≤ i + 1 := by simp at hlen; omega
    exact (List.take_of_length_le hle).symm
  | cons v vs ih =>
    intro iso buf i c rest hs hlen
    obtain ⟨htag, hscopes, _⟩ := createLocal_spec iso v hs
    have hlen' : buf.length = i + 1 + (vs.length + 1) := by simp at hlen; omega
    have hbuf' : (buf.set (i + 1) ((HandleScope.createLocal iso v).1.tagged
        (HandleScope.createLocal iso v).2)).length = (i + 1) + 1 + vs.length := by
      rw [List.length_set]; omega
    obtain ⟨h1, c', h2⟩ :=
      ih (HandleScope.createLocal iso v).2
        (buf.set (i + 1) ((HandleScope.createLocal iso v).1.tagged
          (HandleScope.createLocal iso v).2))
        (i + 1) _ rest hscopes hbuf'
    refine ⟨?_, ⟨c', ?_⟩⟩
    · show (writeArgs (HandleScope.createLocal iso v).2
        (buf.set (i + 1) ((HandleScope.createLocal iso v).1.tagged
          (HandleScope.createLocal iso v).2)) vs (i + 1)).1 = _
      rw [h1, htag]
      have hlt : i + 1 < buf.length := by omega
      have hset : (buf.set (i + 1) (taggedFor v)).take (i + 1 + 1)
          = buf.take (i + 1) ++ [taggedFor v] := by
        rw [List.set_eq_take_append_cons_drop, if_pos hlt,
          List.take_append_eq_append_take]
        have h1' : (buf.take (i + 1)).length = i + 1 := by
          rw [List.length_take]; omega
        have h2' : (buf.take (i + 1)).length ≤ i + 1 + 1 := by omega
        rw [List.take_of_length_le h2', h1']
        simp
      rw [hset]
      simp
    · exact h2

theorem trampolineArgs_spec (iso : Isolate) (cf : CallFrame) :
    (trampolineArgs iso cf).1 = taggedFor cf.thisValue :: cf.arguments.map taggedFor ∧
    ∃ c, (trampolineArgs iso cf).2.scopes = c :: iso.scopes := by
  have hcon : (HandleScope.construct iso).scopes = ScopeRec.mk [] :: iso.scopes := rfl
  obtain ⟨htag, hscopes, _⟩ := createLocal_spec (HandleScope.construct iso) cf.thisValue hcon
  set p := HandleScope.createLocal (HandleScope.construct iso) cf.thisValue with hp
  have hbuf : ((List.replicate (cf.arguments.length + 1) TaggedPointer.empty).set 0
      (p.1.tagged p.2)).length = 0 + 1 + cf.arguments.length := by
    rw [List.length_set, List.length_replicate]; omega
  obtain ⟨h1, c', h2⟩ := writeArgs_spec cf.arguments p.2
    ((List.replicate (cf.arguments.length + 1) TaggedPointer.empty).set 0 (p.1.tagged p.2))
    0 _ iso.scopes hscopes hbuf
  constructor
  · show (writeArgs p.2 _ cf.arguments 0).1 = _
    rw [h1, htag]
    have htake : ((List.replicate (cf.arguments.length + 1) TaggedPointer.empty).set 0
        (taggedFor cf.thisValue)).take (0 + 1) = [taggedFor cf.thisValue] := by
      rw [List.replicate_succ]
      simp
    rw [htake]
    rfl
  · exact ⟨c', h2⟩

theorem trampolineInfo_spec (isoPtr : Nat) (iso : Isolate) (cf : CallFrame)
    (ft : FunctionTemplate) :
    (trampolineInfo isoPtr iso cf ft).1 =
      ⟨⟨none, isoPtr, none, TaggedPointer.empty, taggedFor ft.m_data, none⟩,
        cf.arguments.map taggedFor, cf.arguments.length⟩ ∧
    ∃ c a, (trampolineInfo isoPtr iso cf ft).2.scopes = c :: iso.scopes ∧
      (a, taggedFor ft.m_data) ∈ c.slots := by
  obtain ⟨hbuf, c, hsc⟩ := trampolineArgs_spec iso cf
  obtain ⟨htag, hsc2, _⟩ := createLocal_spec (trampolineArgs iso cf).2 ft.m_data hsc
  constructor
  · show (⟨⟨none, isoPtr, none, TaggedPointer.empty,
        (HandleScope.createLocal (trampolineArgs iso cf).2 ft.m_data).1.tagged
          (HandleScope.createLocal (trampolineArgs iso cf).2 ft.m_data).2, none⟩,
        (trampolineArgs iso cf).1.drop 1, cf.arguments.length⟩ : FunctionCallbackInfo) = _
    rw [htag, hbuf]
    rfl
  · refine ⟨_, (trampolineArgs iso cf).2.nextSlot, hsc2, ?_⟩
    exact List.mem_cons_self _ _

/-- The content of the return-value slot after the native callback returns
(the value tested on FunctionTemplate.cpp line 91). -/
def trampolineReturnWord (isoPtr : Nat) (iso : Isolate) (cf : CallFrame)
    (ft : FunctionTemplate) : TaggedPointer :=
  (ft.m_callback (trampolineInfo isoPtr iso cf ft).1).getD
    (trampolineInfo isoPtr iso cf ft).1.implicit_args.return_value

theorem trampolineReturnWord_eq (isoPtr : Nat) (iso : Isolate) (cf : CallFrame)
    (ft : FunctionTemplate) :
    trampolineReturnWord isoPtr iso cf ft =
      (ft.m_callback (trampolineInfo isoPtr iso cf ft).1).getD TaggedPointer.empty := by
  rw [trampolineReturnWord, (trampolineInfo_spec isoPtr iso cf ft).1]

theorem functionCall_resolved (g : GlobalObject) (iso : Isolate) (cf : CallFrame)
    (f : Function) (h : jsDynamicCastFunction cf.jsCallee = some f) :
    FunctionTemplate.functionCall g iso cf =
      if (trampolineReturnWord (resolveIsolate g) iso cf f.functionTemplate).type ≠ TagKind.Smi ∧
          (trampolineReturnWord (resolveIsolate g) iso cf f.functionTemplate).getPtr = 0 then
        .ok (.undefined,
          HandleScope.destruct (trampolineInfo (resolveIsolate g) iso cf f.functionTemplate).2)
      else
        .ok ((jsFromTagged
            (trampolineReturnWord (resolveIsolate g) iso cf f.functionTemplate)).getD .undefined,
          HandleScope.destruct (trampolineInfo (resolveIsolate g) iso cf f.functionTemplate).2) := by
  simp only [FunctionTemplate.functionCall, h, trampolineReturnWord]

theorem runOps_append (iso : Isolate) (xs ys : List ScopeOp) :
    runOps iso (xs ++ ys) = runOps (runOps iso xs) ys := by
  induction xs generalizing iso with
  | nil => rfl
  | cons op xs ih =>
    simp only [List.cons_append, runOps]
    exact ih _

theorem allocLocals_shape :
    ∀ (vs : List JSValue) (c : ScopeRec) (rest : List ScopeRec) (n : Nat),
      ∃ extra n2, allocLocals ⟨c :: rest, n⟩ vs
          = ⟨ScopeRec.mk (extra ++ c.slots) :: rest, n2⟩ ∧
        n ≤ n2 ∧ ∀ p ∈ extra, n ≤ p.1 := by
  intro vs
  induction vs with
  | nil =>
    intro c rest n
    exact ⟨[], n, rfl, le_refl n, by simp⟩
  | cons v vs ih =>
    intro c rest n
    obtain ⟨extra, n2, heq, hle, hkeys⟩ :=
      ih (ScopeRec.mk ((n, taggedFor v) :: c.slots)) rest (n + 1)
    refine ⟨extra ++ [(n, taggedFor v)], n2, ?_, by omega, ?_⟩
    · show allocLocals ⟨ScopeRec.mk ((n, taggedFor v) :: c.slots) :: rest, n + 1⟩ vs = _
      rw [heq]
      simp
    · intro p hp
      rcases List.mem_append.mp hp with h | h
      · exact le_of_lt (lt_of_lt_of_le (Nat.lt_succ_self n) (hkeys p h))
      · rcases List.mem_singleton.mp h with rfl
        exact le_refl n

theorem balanced_shape {ops : List ScopeOp} (h : Balanced ops) :
    ∀ (c : ScopeRec) (rest : List ScopeRec) (n : Nat),
      ∃ extra n2, runOps ⟨c :: rest, n⟩ ops = ⟨ScopeRec.mk (extra ++ c.slots) :: rest, n2⟩ ∧
        n ≤ n2 ∧ ∀ p ∈ extra, n ≤ p.1 := by
  induction h with
  | nil =>
    intro c rest n
    exact ⟨[], n, rfl, le_refl n, by simp⟩
  | alloc v ops hops ih =>
    intro c rest n
    obtain ⟨extra, n2, heq, hle, hkeys⟩ := ih (ScopeRec.mk ((n, taggedFor v) :: c.slots)) rest (n + 1)
    refine ⟨extra ++ [(n, taggedFor v)], n2, ?_, by omega, ?_⟩
    · show runOps (ScopeOp.step ⟨c :: rest, n⟩ (.alloc v)) ops = _
      show runOps ⟨ScopeRec.mk ((n, taggedFor v) :: c.slots) :: rest, n + 1⟩ ops = _
      rw [heq]
      simp
    · intro p hp
      rcases List.mem_append.mp hp with h | h
      · exact le_of_lt (lt_of_lt_of_le (Nat.lt_succ_self n) (hkeys p h))
      · rcases List.mem_singleton.mp h with rfl
        exact le_refl n
  | nest ops1 ops2 hops1 hops2 ih1 ih2 =>
    intro c rest n
    obtain ⟨extra1, n1, heq1, hle1, _⟩ := ih1 (ScopeRec.mk []) (c :: rest) n
    obtain ⟨extra2, n2, heq2, hle2, hkeys2⟩ := ih2 c rest n1
    refine ⟨extra2, n2, ?_, by omega, fun p hp => le_trans hle1 (hkeys2 p hp)⟩
    show runOps ⟨c :: rest, n⟩ (.push :: (ops1 ++ .pop :: ops2)) = _
    show runOps (ScopeOp.step ⟨c :: rest, n⟩ .push) (ops1 ++ .pop :: ops2) = _
    rw [show ScopeOp.step ⟨c :: rest, n⟩ .push = ⟨ScopeRec.mk [] :: c :: rest, n⟩ from rfl,
      runOps_append, heq1]
    show runOps (ScopeOp.step ⟨ScopeRec.mk (extra1 ++ []) :: c :: rest, n1⟩ .pop) ops2 = _
    rw [show ScopeOp.step ⟨ScopeRec.mk (extra1 ++ []) :: c :: rest, n1⟩ .pop
        = ⟨c :: rest, n1⟩ from rfl, heq2]

theorem escapeRun_spec (c : ScopeRec) (rest : List ScopeRec) (n : Nat) (vs : List JSValue)
    (v : TaggedPointer) :
    ∃ n2, escapeRun ⟨c :: rest, n⟩ vs v
        = (n, ⟨ScopeRec.mk ((n, v) :: c.slots) :: rest, n2⟩) := by
  obtain ⟨extra, n2, halloc, hle, hkeys⟩ :=
    allocLocals_shape vs (ScopeRec.mk [])
      (ScopeRec.mk ((n, TaggedPointer.empty) :: c.slots) :: rest) (n + 1)
  refine ⟨n2, ?_⟩
  have hcon : EscapableHandleScopeBase.construct ⟨c :: rest, n⟩
      = (n, ⟨ScopeRec.mk [] :: ScopeRec.mk ((n, TaggedPointer.empty) :: c.slots) :: rest,
          n + 1⟩) := rfl
  have hlook1 : extra.lookup n = none :=
    lookup_eq_none_of_lt (fun p hp => lt_of_lt_of_le (Nat.lt_succ_self n) (hkeys p hp))
  simp only [escapeRun, hcon, halloc, EscapableHandleScopeBase.EscapeSlot]
  simp only [List.append_nil]
  rw [show writeSlotIn (ScopeRec.mk extra :: ScopeRec.mk ((n, TaggedPointer.empty) :: c.slots)
        :: rest) n v
      = ScopeRec.mk extra :: writeSlotIn (ScopeRec.mk ((n, TaggedPointer.empty) :: c.slots)
        :: rest) n v by
    simp only [writeSlotIn, hlook1]]
  rw [show writeSlotIn (ScopeRec.mk ((n, TaggedPointer.empty) :: c.slots) :: rest) n v
      = ScopeRec.mk (setSlotIn ((n, TaggedPointer.empty) :: c.slots) n v) :: rest by
    simp only [writeSlotIn, lookup_cons_self]]
  rw [show setSlotIn ((n, TaggedPointer.empty) :: c.slots) n v = (n, v) :: c.slots by
    simp [setSlotIn]]
  rfl

/-! ## Claim theorems -/

/-- C1: for every trampoline invocation with this-value `X` and positional
arguments `A1..An`, the argument buffer has exactly `n + 1` tagged slots,
slot 0 holds the tagged representation of `X`, slot `i` holds the tagged
representation of `Ai`, and the `FunctionCallbackInfo` view is the buffer
offset by one slot, so argument index 0 seen by the callback is `A1`; in
particular an echo callback returns the first positional argument, not the
this-value. -/
theorem c1_argument_buffer_layout (g : GlobalObject) (iso : Isolate) (cf : CallFrame)
    (ft : FunctionTemplate) :
    ((trampolineArgs iso cf).1.length = cf.arguments.length + 1
      ∧ (trampolineArgs iso cf).1
          = taggedFor cf.thisValue :: cf.arguments.map taggedFor
      ∧ (trampolineInfo (resolveIsolate g) iso cf ft).1.values
          = (trampolineArgs iso cf).1.drop 1
      ∧ (trampolineInfo (resolveIsolate g) iso cf ft).1.values
          = cf.arguments.map taggedFor
      ∧ (trampolineInfo (resolveIsolate g) iso cf ft).1.length = cf.arguments.length)
    ∧ ∀ (d X A B : JSValue) (iso0 : Isolate),
        ∃ iso', FunctionTemplate.functionCall g iso0
          ⟨.v8Function (Function.create (FunctionTemplate.create
              (fun info => info.values.head?) d)), X, [A, B]⟩
          = .ok (A, iso') := by
  obtain ⟨hbuf, -⟩ := trampolineArgs_spec iso cf
  have hinfo := (trampolineInfo_spec (resolveIsolate g) iso cf ft).1
  constructor
  · refine ⟨?_, hbuf, ?_, ?_, ?_⟩
    · rw [hbuf]; simp
    · rw [hinfo, hbuf]; rfl
    · rw [hinfo]
    · rw [hinfo]
  · intro d X A B iso0
    set f := Function.create (FunctionTemplate.create
      (fun info => info.values.head?) d) with hf
    set cf0 : CallFrame := ⟨.v8Function f, X, [A, B]⟩ with hcf0
    have hcast : jsDynamicCastFunction cf0.jsCallee = some f := rfl
    have hres := functionCall_resolved g iso0 cf0 f hcast
    have hrv : trampolineReturnWord (resolveIsolate g) iso0 cf0 f.functionTemplate
        = taggedFor A := by
      rw [trampolineReturnWord_eq,
        (trampolineInfo_spec (resolveIsolate g) iso0 cf0 f.functionTemplate).1]
      rfl
    rw [hrv, if_neg (taggedFor_not_unset A), jsFromTagged_taggedFor] at hres
    exact ⟨_, hres⟩

/-- C2: the return-value slot of `ImplicitArgs` is set to the "unset"
sentinel before the callback runs, and if after the callback the slot still
holds that sentinel (a non-Smi null word), the call's result is the host
engine's `undefined`. -/
theorem c2_unset_return_defaults_undefined (g : GlobalObject) (iso : Isolate)
    (cf : CallFrame) (f : Function)
    (hcast : jsDynamicCastFunction cf.jsCallee = some f)
    (hunset : f.functionTemplate.m_callback
        (trampolineInfo (resolveIsolate g) iso cf f.functionTemplate).1 = none) :
    (trampolineInfo (resolveIsolate g) iso cf f.functionTemplate).1.implicit_args.return_value
        = TaggedPointer.empty
    ∧ ∃ iso', FunctionTemplate.functionCall g iso cf = .ok (.undefined, iso') := by
  constructor
  · rw [(trampolineInfo_spec (resolveIsolate g) iso cf f.functionTemplate).1]
  · have hrv : trampolineReturnWord (resolveIsolate g) iso cf f.functionTemplate
        = TaggedPointer.empty := by
      rw [trampolineReturnWord_eq, hunset]
      rfl
    have hres := functionCall_resolved g iso cf f hcast
    rw [hrv, if_pos (by exact ⟨by simp [TaggedPointer.empty, TaggedPointer.type], rfl⟩)] at hres
    exact ⟨_, hres⟩

theorem c2_witness :
    (jsDynamicCastFunction (CallFrame.mk
        (.v8Function (Function.create (FunctionTemplate.create (fun _ => none) (.int32 0))))
        (.object 7) [.int32 4]).jsCallee
      = some (Function.create (FunctionTemplate.create (fun _ => none) (.int32 0))))
    ∧ ((Function.create (FunctionTemplate.create (fun _ => none)
          (.int32 0))).functionTemplate.m_callback
        (trampolineInfo (resolveIsolate ⟨99⟩) ⟨[], 1⟩
          (CallFrame.mk (.v8Function (Function.create (FunctionTemplate.create (fun _ => none)
            (.int32 0)))) (.object 7) [.int32 4])
          (Function.create (FunctionTemplate.create (fun _ => none)
            (.int32 0))).functionTemplate).1 = none)
    ∧ ((trampolineInfo (resolveIsolate ⟨99⟩) ⟨[], 1⟩
          (CallFrame.mk (.v8Function (Function.create (FunctionTemplate.create (fun _ => none)
            (.int32 0)))) (.object 7) [.int32 4])
          (Function.create (FunctionTemplate.create (fun _ => none)
            (.int32 0))).functionTemplate).1.implicit_args.return_value
        = TaggedPointer.empty
      ∧ ∃ iso', FunctionTemplate.functionCall ⟨99⟩ ⟨[], 1⟩
          (CallFrame.mk (.v8Function (Function.create (FunctionTemplate.create (fun _ => none)
            (.int32 0)))) (.object 7) [.int32 4]) = .ok (.undefined, iso')) :=
  ⟨rfl, rfl, c2_unset_return_defaults_undefined ⟨99⟩ ⟨[], 1⟩ _ _ rfl rfl⟩

/-- C3: every legitimate tagged word `v` a callback writes into the
return-value slot — every Smi and every non-null pointer, hence the
encoding of every host value including `undefined` — is converted and
returned as-is by the trampoline, and no encoding of a host value
coincides with the "unset" sentinel, so an explicitly set return value is
never defaulted to `undefined`. -/
theorem c3_legit_return_value_preserved (v : TaggedPointer)
    (hlegit : v.type = TagKind.Smi ∨ v.getPtr ≠ 0) :
    (∀ j, taggedFor j ≠ TaggedPointer.empty)
    ∧ ∃ j, jsFromTagged v = some j
      ∧ ∀ (g : GlobalObject) (iso : Isolate) (cf : CallFrame) (f : Function),
          jsDynamicCastFunction cf.jsCallee = some f →
          f.functionTemplate.m_callback
            (trampolineInfo (resolveIsolate g) iso cf f.functionTemplate).1 = some v →
          ∃ iso', FunctionTemplate.functionCall g iso cf = .ok (j, iso') := by
  refine ⟨taggedFor_ne_empty, ?_⟩
  obtain ⟨j, hj⟩ := jsFromTagged_of_legit hlegit
  refine ⟨j, hj, ?_⟩
  intro g iso cf f hcast hwrite
  have hrv : trampolineReturnWord (resolveIsolate g) iso cf f.functionTemplate = v := by
    rw [trampolineReturnWord_eq, hwrite]
    rfl
  have hcond : ¬(v.type ≠ TagKind.Smi ∧ v.getPtr = 0) := by
    rcases hlegit with h | h
    · intro hc; exact hc.1 h
    · intro hc; exact h hc.2
  have hres := functionCall_resolved g iso cf f hcast
  rw [hrv, if_neg hcond, hj] at hres
  exact ⟨_, hres⟩

theorem c3_witness :
    ((TaggedPointer.smi 42).type = TagKind.Smi ∨ (TaggedPointer.smi 42).getPtr ≠ 0)
    ∧ ((∀ j, taggedFor j ≠ TaggedPointer.empty)
      ∧ ∃ j, jsFromTagged (TaggedPointer.smi 42) = some j
        ∧ ∀ (g : GlobalObject) (iso : Isolate) (cf : CallFrame) (f : Function),
            jsDynamicCastFunction cf.jsCallee = some f →
            f.functionTemplate.m_callback
              (trampolineInfo (resolveIsolate g) iso cf f.functionTemplate).1
              = some (TaggedPointer.smi 42) →
            ∃ iso', FunctionTemplate.functionCall g iso cf = .ok (j, iso')) :=
  ⟨Or.inl rfl, c3_legit_return_value_preserved (TaggedPointer.smi 42) (Or.inl rfl)⟩

/-- C6: the `ImplicitArgs` record handed to the native callback has a null
holder, the isolate resolved from the host global object, a deliberately
null context, the "unset" sentinel in the return-value slot, the tagged
value of the wrapped data handle as target, and a null new-target. -/
theorem c6_implicit_args_fields (g : GlobalObject) (iso : Isolate) (cf : CallFrame)
    (ft : FunctionTemplate) :
    (trampolineInfo (resolveIsolate g) iso cf ft).1.implicit_args.holder = none
    ∧ (trampolineInfo (resolveIsolate g) iso cf ft).1.implicit_args.isolate = resolveIsolate g
    ∧ (trampolineInfo (resolveIsolate g) iso cf ft).1.implicit_args.context = none
    ∧ (trampolineInfo (resolveIsolate g) iso cf ft).1.implicit_args.return_value
        = TaggedPointer.empty
    ∧ (trampolineInfo (resolveIsolate g) iso cf ft).1.implicit_args.target
        = taggedFor ft.m_data
    ∧ (trampolineInfo (resolveIsolate g) iso cf ft).1.implicit_args.new_target = none := by
  rw [(trampolineInfo_spec (resolveIsolate g) iso cf ft).1]
  exact ⟨rfl, rfl, rfl, rfl, rfl, rfl⟩

/-- C7: when the call frame's callee cannot be cast to a `v8::Function`,
the trampoline fails fatally (the null-callee dereference terminates the
call path) and never returns a value. -/
theorem c7_unresolvable_callee_fatal (g : GlobalObject) (iso : Isolate) (cf : CallFrame)
    (h : jsDynamicCastFunction cf.jsCallee = none) :
    FunctionTemplate.functionCall g iso cf = .error .unresolvableCallee
    ∧ ∀ (r : JSValue) (iso' : Isolate),
        FunctionTemplate.functionCall g iso cf ≠ .ok (r, iso') := by
  have heq : FunctionTemplate.functionCall g iso cf = .error .unresolvableCallee := by
    simp only [FunctionTemplate.functionCall, h]
  refine ⟨heq, ?_⟩
  intro r iso' hok
  rw [heq] at hok
  exact absurd hok (by simp)

theorem c7_witness :
    (jsDynamicCastFunction (CallFrame.mk (.hostCallee 3) (.undefined) []).jsCallee = none)
    ∧ (FunctionTemplate.functionCall ⟨99⟩ ⟨[], 1⟩
        (CallFrame.mk (.hostCallee 3) (.undefined) []) = .error .unresolvableCallee
      ∧ ∀ (r : JSValue) (iso' : Isolate),
          FunctionTemplate.functionCall ⟨99⟩ ⟨[], 1⟩
            (CallFrame.mk (.hostCallee 3) (.undefined) []) ≠ .ok (r, iso')) :=
  ⟨rfl, c7_unresolvable_callee_fatal ⟨99⟩ ⟨[], 1⟩ _ rfl⟩

/-- C4: the callee's captured data value is wrapped as a `Local` stored in
a handle slot of the trampoline's own `HandleScope` before the callback is
invoked, and a callback reading the data through the info view observes
exactly the template's data value — for every isolate state, in particular
states in which the scope that created the template no longer exists; the
template itself keeps the data visible to the collector via
`visitChildrenImpl`. -/
theorem c4_data_wrapped_and_observed (g : GlobalObject) (iso : Isolate) (cf : CallFrame)
    (ft : FunctionTemplate) :
    (trampolineInfo (resolveIsolate g) iso cf ft).1.dataValue = some ft.m_data
    ∧ (trampolineInfo (resolveIsolate g) iso cf ft).1.implicit_args.target
        = taggedFor ft.m_data
    ∧ (∃ c a, (trampolineInfo (resolveIsolate g) iso cf ft).2.scopes = c :: iso.scopes
        ∧ (a, taggedFor ft.m_data) ∈ c.slots)
    ∧ ft.m_data ∈ ft.visitChildren := by
  obtain ⟨hinfo, hscope⟩ := trampolineInfo_spec (resolveIsolate g) iso cf ft
  refine ⟨?_, ?_, hscope, List.mem_singleton.mpr rfl⟩
  · rw [FunctionCallbackInfo.dataValue, hinfo]
    exact jsFromTagged_taggedFor ft.m_data
  · rw [hinfo]

/-- C9: every `Function` created from a `FunctionTemplate` is constructed
with `FunctionTemplate::functionCall` as its native invocation target, so
host-engine dispatch on such a function always enters the trampoline. -/
theorem c9_function_dispatches_to_trampoline (ft : FunctionTemplate) :
    (Function.create ft).callTarget = NativeCallTarget.functionTemplateFunctionCall
    ∧ (Function.construct ft).callTarget = NativeCallTarget.functionTemplateFunctionCall
    ∧ ∀ (g : GlobalObject) (iso : Isolate) (cf : CallFrame),
        (Function.create ft).hostCallTarget g iso cf
          = FunctionTemplate.functionCall g iso cf :=
  ⟨rfl, rfl, fun _ _ _ => rfl⟩

/-- C10: for a call with zero positional arguments the argument buffer is
exactly one slot (the tagged this-value), the info view has length 0 with
its argument vector starting one past the this slot, and no argument index
is ever readable through the view (the base pointer is never dereferenced). -/
theorem c10_zero_arguments (g : GlobalObject) (iso : Isolate) (cf : CallFrame)
    (ft : FunctionTemplate) (h : cf.arguments = []) :
    (trampolineArgs iso cf).1 = [taggedFor cf.thisValue]
    ∧ (trampolineArgs iso cf).1.length = 1
    ∧ (trampolineInfo (resolveIsolate g) iso cf ft).1.values
        = (trampolineArgs iso cf).1.drop 1
    ∧ (trampolineInfo (resolveIsolate g) iso cf ft).1.values = []
    ∧ (trampolineInfo (resolveIsolate g) iso cf ft).1.length = 0
    ∧ ∀ i, (trampolineInfo (resolveIsolate g) iso cf ft).1.values.get? i = none := by
  obtain ⟨hbuf, -⟩ := trampolineArgs_spec iso cf
  have hinfo := (trampolineInfo_spec (resolveIsolate g) iso cf ft).1
  rw [h] at hbuf
  refine ⟨hbuf, by rw [hbuf]; rfl, ?_, ?_, ?_, ?_⟩
  · rw [hinfo, hbuf, h]
    rfl
  · rw [hinfo, h]
    rfl
  · rw [hinfo, h]
    rfl
  · intro i
    rw [hinfo, h]
    simp

theorem c10_witness :
    ((CallFrame.mk (.hostCallee 0) (.object 4) []).arguments = [])
    ∧ ((trampolineArgs ⟨[], 1⟩ (CallFrame.mk (.hostCallee 0) (.object 4) [])).1
        = [taggedFor (CallFrame.mk (.hostCallee 0) (.object 4) []).thisValue]
      ∧ (trampolineArgs ⟨[], 1⟩ (CallFrame.mk (.hostCallee 0) (.object 4) [])).1.length = 1
      ∧ (trampolineInfo (resolveIsolate ⟨99⟩) ⟨[], 1⟩
            (CallFrame.mk (.hostCallee 0) (.object 4) [])
            (FunctionTemplate.create (fun _ => none) (.int32 0))).1.values
          = (trampolineArgs ⟨[], 1⟩ (CallFrame.mk (.hostCallee 0) (.object 4) [])).1.drop 1
      ∧ (trampolineInfo (resolveIsolate ⟨99⟩) ⟨[], 1⟩
            (CallFrame.mk (.hostCallee 0) (.object 4) [])
            (FunctionTemplate.create (fun _ => none) (.int32 0))).1.values = []
      ∧ (trampolineInfo (resolveIsolate ⟨99⟩) ⟨[], 1⟩
            (CallFrame.mk (.hostCallee 0) (.object 4) [])
            (FunctionTemplate.create (fun _ => none) (.int32 0))).1.length = 0
      ∧ ∀ i, (trampolineInfo (resolveIsolate ⟨99⟩) ⟨[], 1⟩
            (CallFrame.mk (.hostCallee 0) (.object 4) [])
            (FunctionTemplate.create (fun _ => none) (.int32 0))).1.values.get? i = none) :=
  ⟨rfl, c10_zero_arguments ⟨99⟩ ⟨[], 1⟩ _ _ rfl⟩

/-- C5: the escapable scope reserves its escape slot in the parent scope
(the scope active immediately before this one is pushed) before performing
any of its own allocations, and one `EscapeSlot(v)` call followed by the
scope's destruction leaves the parent-owned slot holding `v`: the returned
slot address reads back `v` after destruction and the slot is owned by the
scope that is the parent's top again, for the parent's remaining lifetime. -/
theorem c5_escape_slot (iso : Isolate) (c : ScopeRec) (rest : List ScopeRec)
    (hs : iso.scopes = c :: rest) (vs : List JSValue) (v : TaggedPointer) :
    (∃ cp, (EscapableHandleScopeBase.construct iso).2.scopes
          = ScopeRec.mk [] :: cp :: rest
        ∧ ((EscapableHandleScopeBase.construct iso).1, TaggedPointer.empty) ∈ cp.slots)
    ∧ (escapeRun iso vs v).1 = (EscapableHandleScopeBase.construct iso).1
    ∧ Isolate.readSlot (escapeRun iso vs v).2 (escapeRun iso vs v).1 = some v
    ∧ ∃ c', (escapeRun iso vs v).2.scopes = c' :: rest
        ∧ ((escapeRun iso vs v).1, v) ∈ c'.slots := by
  obtain ⟨scopes, n⟩ := iso
  simp only at hs
  subst hs
  obtain ⟨n2, hrun⟩ := escapeRun_spec c rest n vs v
  refine ⟨⟨ScopeRec.mk ((n, TaggedPointer.empty) :: c.slots), rfl, List.mem_cons_self _ _⟩,
    ?_, ?_, ?_⟩
  · rw [hrun]
    rfl
  · rw [hrun]
    show readSlotIn (ScopeRec.mk ((n, v) :: c.slots) :: rest) n = some v
    simp only [readSlotIn, lookup_cons_self]
  · rw [hrun]
    exact ⟨ScopeRec.mk ((n, v) :: c.slots), rfl, List.mem_cons_self _ _⟩

theorem c5_witness :
    ((⟨[ScopeRec.mk []], 1⟩ : Isolate).scopes = ScopeRec.mk [] :: [])
    ∧ ((∃ cp, (EscapableHandleScopeBase.construct ⟨[ScopeRec.mk []], 1⟩).2.scopes
          = ScopeRec.mk [] :: cp :: []
        ∧ ((EscapableHandleScopeBase.construct ⟨[ScopeRec.mk []], 1⟩).1,
            TaggedPointer.empty) ∈ cp.slots)
    ∧ (escapeRun ⟨[ScopeRec.mk []], 1⟩ [.int32 7, .object 2] (TaggedPointer.smi 9)).1
        = (EscapableHandleScopeBase.construct ⟨[ScopeRec.mk []], 1⟩).1
    ∧ Isolate.readSlot
        (escapeRun ⟨[ScopeRec.mk []], 1⟩ [.int32 7, .object 2] (TaggedPointer.smi 9)).2
        (escapeRun ⟨[ScopeRec.mk []], 1⟩ [.int32 7, .object 2] (TaggedPointer.smi 9)).1
        = some (TaggedPointer.smi 9)
    ∧ ∃ c', (escapeRun ⟨[ScopeRec.mk []], 1⟩ [.int32 7, .object 2]
          (TaggedPointer.smi 9)).2.scopes = c' :: []
        ∧ ((escapeRun ⟨[ScopeRec.mk []], 1⟩ [.int32 7, .object 2]
            (TaggedPointer.smi 9)).1, TaggedPointer.smi 9) ∈ c'.slots) :=
  ⟨rfl, c5_escape_slot ⟨[ScopeRec.mk []], 1⟩ (ScopeRec.mk []) [] rfl
    [.int32 7, .object 2] (TaggedPointer.smi 9)⟩

/-- C8: under strict LIFO use of handle scopes, every slot readable before
a balanced sequence of scope operations is still readable with the same
value afterwards (locals stay valid with their correct values while their
scope lives), destroying a scope restores exactly the scope stack that was
active before its construction, and the trampoline itself — which converts
the return value before tearing its scope down — returns with the
isolate's scope stack exactly as it found it. -/
theorem c8_handle_scope_lifo (ops : List ScopeOp) (h : Balanced ops) (c : ScopeRec)
    (rest : List ScopeRec) (n : Nat) :
    (runOps ⟨c :: rest, n⟩ ops).scopes.length = (c :: rest).length
    ∧ (∀ a t, a < n → Isolate.readSlot ⟨c :: rest, n⟩ a = some t →
        Isolate.readSlot (runOps ⟨c :: rest, n⟩ ops) a = some t)
    ∧ (runOps ⟨c :: rest, n⟩ (.push :: ops ++ [.pop])).scopes = c :: rest
    ∧ ∀ (g : GlobalObject) (iso : Isolate) (cf : CallFrame) (f : Function),
        jsDynamicCastFunction cf.jsCallee = some f →
        ∃ r iso', FunctionTemplate.functionCall g iso cf = .ok (r, iso')
          ∧ iso'.scopes = iso.scopes := by
  obtain ⟨extra, n2, heq, hle, hkeys⟩ := balanced_shape h c rest n
  refine ⟨?_, ?_, ?_, ?_⟩
  · rw [heq]
    rfl
  · intro a t ha hread
    have hnone : extra.lookup a = none :=
      lookup_eq_none_of_lt (fun p hp => lt_of_lt_of_le ha (hkeys p hp))
    have happ : (extra ++ c.slots).lookup a = c.slots.lookup a :=
      lookup_append_left_none _ hnone
    rw [Isolate.readSlot] at hread
    rw [Isolate.readSlot, heq]
    show readSlotIn (ScopeRec.mk (extra ++ c.slots) :: rest) a = some t
    cases hl : c.slots.lookup a with
    | some t0 =>
      simp only [readSlotIn, hl] at hread
      simp only [readSlotIn, happ, hl]
      exact hread
    | none =>
      simp only [readSlotIn, hl] at hread
      simp only [readSlotIn, happ, hl]
      exact hread
  · obtain ⟨extra1, n1, heq1, -, -⟩ := balanced_shape h (ScopeRec.mk []) (c :: rest) n
    show (runOps (ScopeOp.step ⟨c :: rest, n⟩ .push) (ops ++ [.pop])).scopes = c :: rest
    rw [show ScopeOp.step ⟨c :: rest, n⟩ .push
        = ⟨ScopeRec.mk [] :: c :: rest, n⟩ from rfl, runOps_append, heq1]
    rfl
  · intro g iso cf f hcast
    have hscopes : (HandleScope.destruct
        (trampolineInfo (resolveIsolate g) iso cf f.functionTemplate).2).scopes
        = iso.scopes := by
      obtain ⟨c0, a0, hsc, -⟩ :=
        (trampolineInfo_spec (resolveIsolate g) iso cf f.functionTemplate).2
      rw [HandleScope.destruct, hsc]
      rfl
    have hres := functionCall_resolved g iso cf f hcast
    by_cases hcond :
        (trampolineReturnWord (resolveIsolate g) iso cf f.functionTemplate).type
          ≠ TagKind.Smi ∧
        (trampolineReturnWord (resolveIsolate g) iso cf f.functionTemplate).getPtr = 0
    · rw [if_pos hcond] at hres
      exact ⟨_, _, hres, hscopes⟩
    · rw [if_neg hcond] at hres
      exact ⟨_, _, hres, hscopes⟩

theorem c8_witness :
    Balanced [ScopeOp.push, ScopeOp.alloc (JSValue.int32 3), ScopeOp.pop]
    ∧ ((runOps ⟨ScopeRec.mk [(0, TaggedPointer.smi 5)] :: [], 1⟩
          [ScopeOp.push, ScopeOp.alloc (JSValue.int32 3), ScopeOp.pop]).scopes.length
        = (ScopeRec.mk [(0, TaggedPointer.smi 5)] :: []).length
      ∧ (∀ a t, a < 1 →
          Isolate.readSlot ⟨ScopeRec.mk [(0, TaggedPointer.smi 5)] :: [], 1⟩ a = some t →
          Isolate.readSlot (runOps ⟨ScopeRec.mk [(0, TaggedPointer.smi 5)] :: [], 1⟩
            [ScopeOp.push, ScopeOp.alloc (JSValue.int32 3), ScopeOp.pop]) a = some t)
      ∧ (runOps ⟨ScopeRec.mk [(0, TaggedPointer.smi 5)] :: [], 1⟩
          (.push :: [ScopeOp.push, ScopeOp.alloc (JSValue.int32 3), ScopeOp.pop]
            ++ [.pop])).scopes
        = ScopeRec.mk [(0, TaggedPointer.smi 5)] :: []
      ∧ ∀ (g : GlobalObject) (iso : Isolate) (cf : CallFrame) (f : Function),
          jsDynamicCastFunction cf.jsCallee = some f →
          ∃ r iso', FunctionTemplate.functionCall g iso cf = .ok (r, iso')
            ∧ iso'.scopes = iso.scopes) :=
  ⟨Balanced.nest [ScopeOp.alloc (JSValue.int32 3)] []
      (Balanced.alloc (JSValue.int32 3) [] Balanced.nil) Balanced.nil,
    c8_handle_scope_lifo [ScopeOp.push, ScopeOp.alloc (JSValue.int32 3), ScopeOp.pop]
      (Balanced.nest [ScopeOp.alloc (JSValue.int32 3)] []
        (Balanced.alloc (JSValue.int32 3) [] Balanced.nil) Balanced.nil)
      (ScopeRec.mk [(0, TaggedPointer.smi 5)]) [] 1⟩

end V8Shim
